import Mathlib

/-!
Shallow embedding of the fog-visibility pipeline of
`isitfoggyinsanfrancisco`: the per-landmark image comparison
(`checkLandmarkVisibility`), the score-to-category map (`getFogLevel`),
the per-location analysis (`analyzeFogLevel`), the region grouping of the
check-fog entry point, and the historical store (daily buckets, the 7-day
"recent" rollup, and the 2-year retention sweep).

Numeric conventions: JavaScript number arithmetic on the quantities that
appear here (small integer counts divided and rounded) is modelled by
exact rational arithmetic `ℚ`; timestamps are modelled as epoch
milliseconds `ℤ`, a `YYYY-MM-DD` date key as its UTC day number `ℤ`
(so the epoch value of the key's midnight is `day * msPerDay`, exactly
what `new Date(key).getTime()` yields).  Image processing (sharp /
pixelmatch) is abstracted to the mismatched-pixel count it produces for
each landmark region.
-/

namespace Fog

/-- `FogLevel` from types.ts: the four ordered fog categories. -/
inductive FogLevel where
  | clear
  | light
  | moderate
  | heavy
deriving DecidableEq

/-- JavaScript `Math.round` on exact rationals: `⌊x + 1/2⌋` (halves round
toward +∞). -/
def jsRound (x : ℚ) : ℤ := ⌊x + 1/2⌋

/-- `getFogLevel` from fog-detector.ts: map a visibility score to a fog
level.  The score parameter is `ℚ` because the caller passes the raw,
unrounded score. -/
def getFogLevel (score : ℚ) : FogLevel :=
  if score ≥ 80 then FogLevel.clear
  else if score ≥ 50 then FogLevel.light
  else if score ≥ 20 then FogLevel.moderate
  else FogLevel.heavy

/-- Result record of `checkLandmarkVisibility`. -/
structure CheckResult where
  visible : Bool
  similarity : ℚ
deriving DecidableEq

/-- `checkLandmarkVisibility` from fog-detector.ts, with the image
processing abstracted to its outcome: `diff` is the mismatched-pixel
count `pixelmatch` reports for the landmark's `width × height` region,
and `threshold` is the landmark's similarity threshold.
`similarity = 1 - diff / (width*height)`; the landmark is visible iff the
raw similarity is at least the threshold, while the reported similarity
is rounded to 2 decimals (`Math.round(similarity * 100) / 100`). -/
def checkLandmarkVisibility (diff width height : ℕ) (threshold : ℚ) : CheckResult :=
  let totalPixels : ℚ := (width * height : ℕ)
  let similarity : ℚ := 1 - diff / totalPixels
  { visible := decide (similarity ≥ threshold)
    similarity := (jsRound (similarity * 100) : ℚ) / 100 }

/-- One configured landmark together with the observation the image
pipeline produced for it in this run: its name and threshold from
`LandmarkTemplate`, the region's pixel dimensions, and the
mismatched-pixel count `pixelmatch` returned for the fetched webcam
image. -/
structure LandmarkObs where
  name : String
  diff : ℕ
  width : ℕ
  height : ℕ
  threshold : ℚ
deriving DecidableEq

/-- `LocationConfig` from types.ts, restricted to the fields the analysis
reads, with each landmark bundled with its per-run observation. -/
structure LocationConfig where
  location : String
  region : String
  landmarks : List LandmarkObs
deriving DecidableEq

/-- `LandmarkDetail` from types.ts. -/
structure LandmarkDetail where
  name : String
  visible : Bool
  similarity : ℚ
deriving DecidableEq

/-- `VisibilityResult` from types.ts. -/
structure VisibilityResult where
  location : String
  region : String
  landmarksVisible : ℕ
  totalLandmarks : ℕ
  visibilityScore : ℤ
  fogLevel : FogLevel
  timestamp : ℤ
  landmarkDetails : List LandmarkDetail
deriving DecidableEq

/-- `analyzeFogLevel` from fog-detector.ts: check every configured
landmark, count the visible ones, and build the `VisibilityResult`.
`now` is the current wall-clock instant used for the timestamp.  Note the
source computes `visibilityScore = (visibleCount / landmarks.length) * 100`
once, then stores `Math.round(visibilityScore)` but classifies the
unrounded value: `fogLevel: getFogLevel(visibilityScore)`. -/
def analyzeFogLevel (config : LocationConfig) (now : ℤ) : VisibilityResult :=
  let landmarkDetails := config.landmarks.map fun l =>
    let r := checkLandmarkVisibility l.diff l.width l.height l.threshold
    LandmarkDetail.mk l.name r.visible r.similarity
  let visibleCount := (landmarkDetails.filter fun d => d.visible).length
  let visibilityScore : ℚ := ((visibleCount : ℚ) / (config.landmarks.length : ℚ)) * 100
  { location := config.location
    region := config.region
    landmarksVisible := visibleCount
    totalLandmarks := config.landmarks.length
    visibilityScore := jsRound visibilityScore
    fogLevel := getFogLevel visibilityScore
    timestamp := now
    landmarkDetails := landmarkDetails }

/-- One millisecond-count per hour. -/
def msPerHour : ℤ := 3600000

/-- One millisecond-count per day. -/
def msPerDay : ℤ := 86400000

/-- `SEVEN_DAYS_MS` from check-fog.ts. -/
def sevenDaysMs : ℤ := 7 * 24 * 60 * 60 * 1000

/-- `TWO_YEARS_MS` from the history-cleanup script. -/
def twoYearsMs : ℤ := 2 * 365 * 24 * 60 * 60 * 1000

/-- The per-region payload stored inside a `HistoricalReading`. -/
structure RegionReading where
  fogLevel : FogLevel
  visibilityScore : ℤ
  landmarksVisible : ℕ
  totalLandmarks : ℕ
deriving DecidableEq

/-- `HistoricalReading` from types.ts: a timestamp plus a region-keyed
map, modelled as an insertion-ordered association list (JavaScript object
property order). -/
structure HistoricalReading where
  timestamp : ℤ
  regions : List (String × RegionReading)
deriving DecidableEq

/-- `HistoricalData` from types.ts: one daily bucket, a 24-slot array of
`null`-able readings (a freshly parsed file may in principle have any
length, so the model keeps a plain list). -/
structure HistoricalData where
  hours : List (Option HistoricalReading)
deriving DecidableEq

/-- Keyed insert with JavaScript `Map.set` / object-assignment semantics:
an existing key keeps its original position and gets the new value, a new
key is appended at the end. -/
def omapInsert {κ α : Type} [DecidableEq κ] (k : κ) (v : α) : List (κ × α) → List (κ × α)
  | [] => [(k, v)]
  | (k', v') :: rest => if k' = k then (k, v) :: rest else (k', v') :: omapInsert k v rest

/-- Keyed lookup in an association list (first hit wins; together with
`omapInsert` this models a JavaScript `Map`). -/
def olookup {κ α : Type} [DecidableEq κ] (k : κ) : List (κ × α) → Option α
  | [] => none
  | (k', v) :: rest => if k' = k then some v else olookup k rest

/-- JavaScript array index assignment `arr[i] = v`: in-bounds writes
replace, out-of-bounds writes extend the array with holes (`none`) up to
index `i`. -/
def setIdx {α : Type} (l : List (Option α)) (i : ℕ) (v : Option α) : List (Option α) :=
  if i < l.length then l.set i v
  else (l ++ List.replicate (i - l.length) none) ++ [v]

/-- The UTC date key of a reading's timestamp, as a day number
(`toISOString().split("T")[0]`). -/
def readingDay (r : HistoricalReading) : ℤ := r.timestamp.fdiv msPerDay

/-- `getUTCHours()` of a reading's timestamp: an hour index in 0–23. -/
def readingHour (r : HistoricalReading) : ℕ :=
  ((r.timestamp.fdiv msPerHour).emod 24).toNat

/-- The `newReading` built at the top of `updateHistoricalData` in
check-fog.ts: timestamp `results[0]?.timestamp || now`, and a region map
folded over the results with object-assignment (last-write-wins)
semantics. -/
def mkReading (results : List VisibilityResult) (now : ℤ) : HistoricalReading :=
  { timestamp := (results.head?.map VisibilityResult.timestamp).getD now
    regions := results.foldl
      (fun m r => omapInsert r.region
        (RegionReading.mk r.fogLevel r.visibilityScore r.landmarksVisible r.totalLandmarks) m)
      [] }

/-- The bucket mutation performed by `updateHistoricalData` in
check-fog.ts: read the daily file for the reading's date (a missing or
unparsable file starts a fresh 24-slot array), write the new reading at
the reading's hour index, and persist the bucket.  The history directory
is modelled as a day-keyed association list; the derived artifacts the
source regenerates afterwards (`generateRecentFile`,
`updateHistoricalRange`) are modelled separately. -/
def updateHistoricalData (results : List VisibilityResult) (now : ℤ)
    (hist : List (ℤ × HistoricalData)) : List (ℤ × HistoricalData) :=
  let newReading := mkReading results now
  let day := readingDay newReading
  let hour := readingHour newReading
  let dailyData := (olookup day hist).getD (HistoricalData.mk (List.replicate 24 none))
  omapInsert day (HistoricalData.mk (setIdx dailyData.hours hour (some newReading))) hist

/-- The reading stored in bucket `day` at slot `hour` (`none` when the
bucket or the slot is absent). -/
def slotAt (hist : List (ℤ × HistoricalData)) (day : ℤ) (hour : ℕ) : Option HistoricalReading :=
  match olookup day hist with
  | none => none
  | some d => d.hours.getD hour none

/-- One entry of the history directory: either a `YYYY-MM-DD` bucket file
(named by its day number, with `none` content when the file is
unreadable or fails to parse) or a non-date file such as `recent`,
`index` or `range`. -/
inductive HFile where
  | bucket (day : ℤ) (content : Option HistoricalData)
  | other (name : String)
deriving DecidableEq

/-- The directory entries that pass the `/^\d{4}-\d{2}-\d{2}$/` filter,
paired with their (possibly unreadable) content. -/
def dateFiles (files : List HFile) : List (ℤ × Option HistoricalData) :=
  files.filterMap fun f => match f with
    | HFile.bucket day content => some (day, content)
    | HFile.other _ => none

/-- The 7-day window test of `generateRecentFile`:
`new Date(f).getTime() >= Date.now() - SEVEN_DAYS_MS`. -/
def bucketInWindow (now day : ℤ) : Bool := decide (day * msPerDay ≥ now - sevenDaysMs)

/-- Reading the filtered daily files one after another, as the `for`
loop of `generateRecentFile` does: the first unreadable or unparsable
file throws, which the surrounding `try` converts into producing no
output at all. -/
def seqReads : List (ℤ × Option HistoricalData) → Option (List HistoricalData)
  | [] => some []
  | (_, none) :: _ => none
  | (_, some d) :: rest => (seqReads rest).map fun ds => d :: ds

/-- Chronological order on bucket files (lexicographic filename order on
zero-padded date keys equals day-number order). -/
def byDay (a b : ℤ × Option HistoricalData) : Prop := a.1 ≤ b.1

instance : DecidableRel byDay := fun a b => inferInstanceAs (Decidable (a.1 ≤ b.1))

instance : IsTotal (ℤ × Option HistoricalData) byDay :=
  ⟨fun a b => Int.le_total a.1 b.1⟩

instance : IsTrans (ℤ × Option HistoricalData) byDay :=
  ⟨fun _ _ _ h₁ h₂ => le_trans h₁ h₂⟩

/-- The comparator of the final sort in `generateRecentFile`:
ascending reading timestamp. -/
def tsLe (a b : HistoricalReading) : Prop := a.timestamp ≤ b.timestamp

instance : DecidableRel tsLe := fun a b => inferInstanceAs (Decidable (a.timestamp ≤ b.timestamp))

instance : IsTotal HistoricalReading tsLe := ⟨fun a b => Int.le_total a.timestamp b.timestamp⟩

instance : IsTrans HistoricalReading tsLe := ⟨fun _ _ _ h₁ h₂ => le_trans h₁ h₂⟩

/-- `generateRecentFile` from check-fog.ts: keep the date-named files
whose date's midnight is within the trailing 7 days, sort them
chronologically, read them in order, flatten the non-`null` slots, sort
ascending by timestamp, and write the `recent` artifact.  The whole body
sits in one `try`/`catch`, so a failed read of any selected file yields
`none`: no `recent` artifact is written and the previous one is left in
place. -/
def generateRecentFile (files : List HFile) (now : ℤ) : Option (List HistoricalReading) :=
  let recentFiles := (((dateFiles files).filter fun p => bucketInWindow now p.1).insertionSort byDay)
  match seqReads recentFiles with
  | none => none
  | some datas =>
      let allReadings := datas.flatMap fun d => d.hours.filterMap id
      some (allReadings.insertionSort tsLe)

/-- The deletion test of the history-cleanup script: a date-named file
strictly older than `now − TWO_YEARS_MS` is unlinked; non-date files are
skipped. -/
def isExpiredAt (now : ℤ) : HFile → Bool
  | HFile.bucket day _ => decide (day * msPerDay < now - twoYearsMs)
  | HFile.other _ => false

/-- The files the cleanup sweep deletes in one run. -/
def cleanupDeleted (files : List HFile) (now : ℤ) : List HFile :=
  files.filter (isExpiredAt now)

/-- The directory left behind by one cleanup sweep (the subsequent
`updateHistoricalRange` rewrite touches only the non-date `range`
artifact and deletes nothing). -/
def cleanupRemaining (files : List HFile) (now : ℤ) : List HFile :=
  files.filter fun f => ! isExpiredAt now f

/-- `RegionStatus` from check-fog.ts. -/
structure RegionStatus where
  region : String
  fogLevel : FogLevel
  visibilityScore : ℤ
  timestamp : ℤ
  landmarks : List LandmarkDetail
deriving DecidableEq

/-- The `regionMap` of the check-fog `main`: a JavaScript `Map` filled
with `regionMap.set(result.region, result)` over the run's results in
order. -/
def buildRegionMap (results : List VisibilityResult) : List (String × VisibilityResult) :=
  results.foldl (fun m r => omapInsert r.region r m) []

/-- The record written for one region endpoint. -/
def mkRegionStatus (region : String) (r : VisibilityResult) : RegionStatus :=
  { region := region
    fogLevel := r.fogLevel
    visibilityScore := r.visibilityScore
    timestamp := r.timestamp
    landmarks := r.landmarkDetails }

/-- The per-region endpoint records, one per `regionMap.entries()` pair,
each stamped with its map key. -/
def regionEndpoints (results : List VisibilityResult) : List RegionStatus :=
  (buildRegionMap results).map fun p => mkRegionStatus p.1 p.2

/-- The flat collection endpoint, built from `regionMap.values()` with
each record stamped with `result.region`. -/
def allRegionsList (results : List VisibilityResult) : List RegionStatus :=
  (buildRegionMap results).map fun p => mkRegionStatus p.2.region p.2

/-- The local `similarity` of `checkLandmarkVisibility` before rounding:
`1 - diff / totalPixels`. -/
def rawSimilarity (diff total : ℕ) : ℚ := 1 - (diff : ℚ) / (total : ℚ)

/-- A 41-landmark configuration with 8 landmarks visible: the raw score
is `800/41 ≈ 19.51`, which rounds to the integer score `20` but sits
below the `moderate` band's lower edge. -/
def cfgBoundary : LocationConfig :=
  { location := "loc"
    region := "reg"
    landmarks := List.replicate 8 (LandmarkObs.mk "v" 0 1 1 0)
      ++ List.replicate 33 (LandmarkObs.mk "i" 1 1 1 1) }

/-- A single-landmark configuration whose landmark is visible. -/
def cfgSingle : LocationConfig :=
  LocationConfig.mk "coit" "north-beach" [LandmarkObs.mk "tower" 0 1 1 (1/2)]

/-- A 3-landmark configuration with exactly 1 landmark visible. -/
def cfgThird : LocationConfig :=
  LocationConfig.mk "twin-peaks" "twin-peaks"
    [LandmarkObs.mk "sutro" 0 1 1 0, LandmarkObs.mk "bridge" 1 1 1 1,
     LandmarkObs.mk "hill" 1 1 1 1]

/-- A concrete first reading for hour 1 of day 0 (epoch ms 3600000). -/
def vrOne : VisibilityResult :=
  VisibilityResult.mk "ferry" "downtown" 1 1 100 FogLevel.clear 3600000 []

/-- A different concrete reading for the same hour 1 of day 0. -/
def vrTwo : VisibilityResult :=
  VisibilityResult.mk "ferry" "downtown" 0 1 0 FogLevel.heavy 3600500 []

/-- A history directory holding one readable bucket (day 0, one reading)
and one unreadable bucket (day 1). -/
def corruptDir : List HFile :=
  [HFile.bucket 0 (some (HistoricalData.mk [some (HistoricalReading.mk 0 []), none])),
   HFile.bucket 1 none]

theorem getFogLevel_eq_clear_iff (q : ℚ) : getFogLevel q = FogLevel.clear ↔ 80 ≤ q := by
  unfold getFogLevel
  split_ifs with h1 h2 h3 <;> simp_all <;> try linarith

theorem getFogLevel_eq_light_iff (q : ℚ) :
    getFogLevel q = FogLevel.light ↔ 50 ≤ q ∧ q < 80 := by
  unfold getFogLevel
  split_ifs with h1 h2 h3 <;> simp_all <;> try intro h <;> try linarith

theorem getFogLevel_eq_moderate_iff (q : ℚ) :
    getFogLevel q = FogLevel.moderate ↔ 20 ≤ q ∧ q < 50 := by
  unfold getFogLevel
  split_ifs with h1 h2 h3 <;> simp_all <;> try intro h <;> try linarith

theorem getFogLevel_eq_heavy_iff (q : ℚ) : getFogLevel q = FogLevel.heavy ↔ q < 20 := by
  unfold getFogLevel
  split_ifs with h1 h2 h3 <;> simp_all <;> try linarith

/-- C4: for every integer score in 0–100, `getFogLevel` returns `clear`
iff `score ≥ 80`, `light` iff `50 ≤ score < 80`, `moderate` iff
`20 ≤ score < 50` and `heavy` iff `score < 20`; in particular the eight
claimed boundary cases hold. -/
theorem getFogLevel_band_boundaries (s : ℤ) (h0 : 0 ≤ s) (h1 : s ≤ 100) :
    (getFogLevel (s : ℚ) = FogLevel.clear ↔ 80 ≤ s) ∧
    (getFogLevel (s : ℚ) = FogLevel.light ↔ 50 ≤ s ∧ s < 80) ∧
    (getFogLevel (s : ℚ) = FogLevel.moderate ↔ 20 ≤ s ∧ s < 50) ∧
    (getFogLevel (s : ℚ) = FogLevel.heavy ↔ s < 20) ∧
    getFogLevel 80 = FogLevel.clear ∧ getFogLevel 79 = FogLevel.light ∧
    getFogLevel 50 = FogLevel.light ∧ getFogLevel 49 = FogLevel.moderate ∧
    getFogLevel 20 = FogLevel.moderate ∧ getFogLevel 19 = FogLevel.heavy ∧
    getFogLevel 0 = FogLevel.heavy ∧ getFogLevel 100 = FogLevel.clear := by
  refine ⟨?_, ?_, ?_, ?_, ?_, ?_, ?_, ?_, ?_, ?_, ?_, ?_⟩
  · rw [getFogLevel_eq_clear_iff]; exact_mod_cast Iff.rfl
  · rw [getFogLevel_eq_light_iff]; constructor <;> intro h <;> exact_mod_cast h
  · rw [getFogLevel_eq_moderate_iff]; constructor <;> intro h <;> exact_mod_cast h
  · rw [getFogLevel_eq_heavy_iff]; exact_mod_cast Iff.rfl
  all_goals norm_num [getFogLevel]

/-- Witness for C4 at the concrete score 80. -/
theorem getFogLevel_band_boundaries_witness :
    (0 ≤ (80:ℤ) ∧ (80:ℤ) ≤ 100) ∧
    ((getFogLevel ((80:ℤ) : ℚ) = FogLevel.clear ↔ 80 ≤ (80:ℤ)) ∧
    (getFogLevel ((80:ℤ) : ℚ) = FogLevel.light ↔ 50 ≤ (80:ℤ) ∧ (80:ℤ) < 80) ∧
    (getFogLevel ((80:ℤ) : ℚ) = FogLevel.moderate ↔ 20 ≤ (80:ℤ) ∧ (80:ℤ) < 50) ∧
    (getFogLevel ((80:ℤ) : ℚ) = FogLevel.heavy ↔ (80:ℤ) < 20) ∧
    getFogLevel 80 = FogLevel.clear ∧ getFogLevel 79 = FogLevel.light ∧
    getFogLevel 50 = FogLevel.light ∧ getFogLevel 49 = FogLevel.moderate ∧
    getFogLevel 20 = FogLevel.moderate ∧ getFogLevel 19 = FogLevel.heavy ∧
    getFogLevel 0 = FogLevel.heavy ∧ getFogLevel 100 = FogLevel.clear) :=
  ⟨⟨by decide, by decide⟩, getFogLevel_band_boundaries 80 (by decide) (by decide)⟩

/-- C6: a landmark is reported visible iff the raw similarity
`1 − diff/totalPixels` is at least its threshold, while the reported
similarity is the raw value rounded to 2 decimals and does not depend on
the threshold: the same comparison under two different thresholds
reports identical similarity. -/
theorem checkLandmarkVisibility_threshold_independent_similarity
    (diff width height : ℕ) (t t' : ℚ) :
    ((checkLandmarkVisibility diff width height t).visible = true ↔
       rawSimilarity diff (width * height) ≥ t) ∧
    (checkLandmarkVisibility diff width height t).similarity
      = (jsRound (rawSimilarity diff (width * height) * 100) : ℚ) / 100 ∧
    (checkLandmarkVisibility diff width height t).similarity
      = (checkLandmarkVisibility diff width height t').similarity := by
  refine ⟨?_, rfl, rfl⟩
  simp [checkLandmarkVisibility, rawSimilarity]

theorem jsRound_nonneg (q : ℚ) (hq : 0 ≤ q) : 0 ≤ jsRound q := by
  unfold jsRound
  exact Int.le_floor.mpr (by push_cast; linarith)

theorem jsRound_le_hundred (q : ℚ) (hq : q ≤ 100) : jsRound q ≤ 100 := by
  unfold jsRound
  have : ⌊q + 1/2⌋ < 101 := Int.floor_lt.mpr (by push_cast; linarith)
  omega

/-- C5: for every location analysis with at least one landmark, the
returned `visibilityScore` equals `round(100 * landmarksVisible /
totalLandmarks)` and lies in `[0, 100]`. -/
theorem analyzeFogLevel_visibilityScore_rounded (config : LocationConfig) (now : ℤ)
    (h : config.landmarks ≠ []) :
    (analyzeFogLevel config now).visibilityScore
        = jsRound (100 * ((analyzeFogLevel config now).landmarksVisible : ℚ)
            / ((analyzeFogLevel config now).totalLandmarks : ℚ)) ∧
    0 ≤ (analyzeFogLevel config now).visibilityScore ∧
    (analyzeFogLevel config now).visibilityScore ≤ 100 := by
  have hn : (0:ℚ) < (config.landmarks.length : ℚ) := by
    have := List.length_pos.mpr h
    exact_mod_cast this
  dsimp only [analyzeFogLevel]
  set v := ((config.landmarks.map fun l =>
    let r := checkLandmarkVisibility l.diff l.width l.height l.threshold
    LandmarkDetail.mk l.name r.visible r.similarity).filter fun d => d.visible).length with hv
  have hvn : v ≤ config.landmarks.length := by
    calc v ≤ (config.landmarks.map fun l =>
        let r := checkLandmarkVisibility l.diff l.width l.height l.threshold
        LandmarkDetail.mk l.name r.visible r.similarity).length := List.length_filter_le _ _
    _ = config.landmarks.length := List.length_map _ _
  have hq0 : (0:ℚ) ≤ ((v : ℚ) / (config.landmarks.length : ℚ)) * 100 := by positivity
  have hq100 : ((v : ℚ) / (config.landmarks.length : ℚ)) * 100 ≤ 100 := by
    have hv1 : (v : ℚ) / (config.landmarks.length : ℚ) ≤ 1 := by
      rw [div_le_one hn]
      exact_mod_cast hvn
    linarith
  refine ⟨?_, jsRound_nonneg _ hq0, jsRound_le_hundred _ hq100⟩
  congr 1
  ring

theorem chk_vis : checkLandmarkVisibility 0 1 1 0 = CheckResult.mk true 1 := by
  unfold checkLandmarkVisibility jsRound
  norm_num

theorem chk_invis : checkLandmarkVisibility 1 1 1 1 = CheckResult.mk false 0 := by
  unfold checkLandmarkVisibility jsRound
  norm_num

/-- Witness for C5 at a concrete 3-landmark location with 1 visible
landmark, where the score is 33, not 34. -/
theorem analyzeFogLevel_visibilityScore_rounded_witness :
    cfgThird.landmarks ≠ [] ∧
    ((analyzeFogLevel cfgThird 0).visibilityScore
        = jsRound (100 * ((analyzeFogLevel cfgThird 0).landmarksVisible : ℚ)
            / ((analyzeFogLevel cfgThird 0).totalLandmarks : ℚ)) ∧
      0 ≤ (analyzeFogLevel cfgThird 0).visibilityScore ∧
      (analyzeFogLevel cfgThird 0).visibilityScore ≤ 100) ∧
    (analyzeFogLevel cfgThird 0).visibilityScore = 33 := by
  refine ⟨by decide, analyzeFogLevel_visibilityScore_rounded cfgThird 0 (by decide), ?_⟩
  dsimp only [analyzeFogLevel, cfgThird]
  simp only [List.map_cons, List.map_nil, chk_vis, chk_invis]
  norm_num [jsRound, Int.floor_eq_iff]

/-- C1 counterexample: at 8 visible landmarks of 41 the raw score is
`800/41 ≈ 19.51`, the stored integer score is 20, the classifier on the
stored score gives `moderate`, but the returned `fogLevel` is `heavy`:
the category is computed from the unrounded score, not from the reported
rounded score. -/
theorem analyzeFogLevel_rounded_classification_counterexample :
    (analyzeFogLevel cfgBoundary 0).fogLevel = FogLevel.heavy ∧
    (analyzeFogLevel cfgBoundary 0).visibilityScore = 20 ∧
    getFogLevel (((analyzeFogLevel cfgBoundary 0).visibilityScore : ℚ)) = FogLevel.moderate ∧
    (analyzeFogLevel cfgBoundary 0).fogLevel
      ≠ getFogLevel (((analyzeFogLevel cfgBoundary 0).visibilityScore : ℚ)) := by
  have key : (analyzeFogLevel cfgBoundary 0).fogLevel = FogLevel.heavy ∧
      (analyzeFogLevel cfgBoundary 0).visibilityScore = 20 := by
    dsimp only [analyzeFogLevel, cfgBoundary]
    rw [List.map_append, List.map_replicate, List.map_replicate]
    simp only [chk_vis, chk_invis]
    norm_num [List.filter_append, List.filter_replicate, getFogLevel, jsRound,
      Int.floor_eq_iff]
  have hmod : getFogLevel (((analyzeFogLevel cfgBoundary 0).visibilityScore : ℚ))
      = FogLevel.moderate := by
    rw [key.2]
    norm_num [getFogLevel]
  refine ⟨key.1, key.2, hmod, ?_⟩
  rw [key.1, hmod]
  simp

/-- C1 amended: for every location analysis with at least one landmark,
the returned `fogLevel` equals the classifier applied to the raw,
unrounded score `100 * landmarksVisible / totalLandmarks` (which can
differ from the classifier applied to the rounded `visibilityScore`
when rounding crosses a band boundary). -/
theorem analyzeFogLevel_fogLevel_classifies_raw_score (config : LocationConfig)
    (now : ℤ) (h : config.landmarks ≠ []) :
    (analyzeFogLevel config now).fogLevel
      = getFogLevel (100 * ((analyzeFogLevel config now).landmarksVisible : ℚ)
          / ((analyzeFogLevel config now).totalLandmarks : ℚ)) := by
  dsimp only [analyzeFogLevel]
  congr 1
  ring

/-- Witness for the amended C1 at a concrete single-landmark location. -/
theorem analyzeFogLevel_fogLevel_classifies_raw_score_witness :
    cfgSingle.landmarks ≠ [] ∧
    (analyzeFogLevel cfgSingle 5).fogLevel
      = getFogLevel (100 * ((analyzeFogLevel cfgSingle 5).landmarksVisible : ℚ)
          / ((analyzeFogLevel cfgSingle 5).totalLandmarks : ℚ)) :=
  ⟨by decide, analyzeFogLevel_fogLevel_classifies_raw_score cfgSingle 5 (by decide)⟩

theorem olookup_omapInsert_self {κ α : Type} [DecidableEq κ] (k : κ) (v : α)
    (l : List (κ × α)) : olookup k (omapInsert k v l) = some v := by
  induction l with
  | nil => simp [omapInsert, olookup]
  | cons p rest ih =>
    obtain ⟨k', v'⟩ := p
    by_cases hk : k' = k
    · simp [omapInsert, olookup, hk]
    · simp [omapInsert, olookup, hk, ih]

theorem getD_setIdx_self {α : Type} (l : List (Option α)) (i : ℕ) (v : Option α) :
    (setIdx l i v).getD i none = v := by
  unfold setIdx
  split
  · next h => simp [List.getD_eq_getElem?_getD, List.getElem?_set_self h]
  · next h =>
    have hlen : (l ++ List.replicate (i - l.length) none).length = i := by
      simp [List.length_append, List.length_replicate]
      omega
    rw [List.getD_eq_getElem?_getD, List.getElem?_append_right (by omega), hlen]
    simp

theorem slotAt_updateHistoricalData (results : List VisibilityResult) (now : ℤ)
    (hist : List (ℤ × HistoricalData)) :
    slotAt (updateHistoricalData results now hist)
        (readingDay (mkReading results now)) (readingHour (mkReading results now))
      = some (mkReading results now) := by
  unfold updateHistoricalData slotAt
  rw [olookup_omapInsert_self]
  exact getD_setIdx_self _ _ _

/-- C7: appending a reading for date `d` and hour `h` and then a second
reading for the same `d` and `h` leaves the second reading (and only it)
in that hour slot: the newer write replaces the older one. -/
theorem updateHistoricalData_last_write_wins (rs1 rs2 : List VisibilityResult)
    (now1 now2 : ℤ) (hist : List (ℤ × HistoricalData))
    (hd : readingDay (mkReading rs1 now1) = readingDay (mkReading rs2 now2))
    (hh : readingHour (mkReading rs1 now1) = readingHour (mkReading rs2 now2)) :
    slotAt (updateHistoricalData rs2 now2 (updateHistoricalData rs1 now1 hist))
        (readingDay (mkReading rs2 now2)) (readingHour (mkReading rs2 now2))
      = some (mkReading rs2 now2) :=
  slotAt_updateHistoricalData rs2 now2 _

/-- Witness for C7: two concrete readings for hour 1 of day 0. -/
theorem updateHistoricalData_last_write_wins_witness :
    readingDay (mkReading [vrOne] 0) = readingDay (mkReading [vrTwo] 0) ∧
    readingHour (mkReading [vrOne] 0) = readingHour (mkReading [vrTwo] 0) ∧
    slotAt (updateHistoricalData [vrTwo] 0 (updateHistoricalData [vrOne] 0 []))
        (readingDay (mkReading [vrTwo] 0)) (readingHour (mkReading [vrTwo] 0))
      = some (mkReading [vrTwo] 0) :=
  ⟨by decide, by decide,
    updateHistoricalData_last_write_wins [vrOne] [vrTwo] 0 0 [] (by decide) (by decide)⟩

/-- C10: invoked with an empty result list, the historical update still
writes a reading with an empty regions map, timestamped with the current
wall-clock instant, into the current hour's slot of today's bucket
(whatever that slot held before). -/
theorem updateHistoricalData_empty_results (now : ℤ) (hist : List (ℤ × HistoricalData)) :
    mkReading [] now = HistoricalReading.mk now [] ∧
    slotAt (updateHistoricalData [] now hist)
        (readingDay (HistoricalReading.mk now []))
        (readingHour (HistoricalReading.mk now []))
      = some (HistoricalReading.mk now []) := by
  have h : mkReading [] now = HistoricalReading.mk now [] := rfl
  exact ⟨h, h ▸ slotAt_updateHistoricalData [] now hist⟩

/-- C9: the retention sweep deletes exactly the date-named buckets dated
strictly earlier than `now − 2 years`; a second sweep over the remaining
files with the same `now` deletes nothing and leaves the directory
unchanged. -/
theorem historyCleanup_idempotent (files : List HFile) (now : ℤ) :
    cleanupDeleted (cleanupRemaining files now) now = [] ∧
    cleanupRemaining (cleanupRemaining files now) now = cleanupRemaining files now ∧
    (∀ f, f ∈ cleanupDeleted files now ↔
      f ∈ files ∧ ∃ day content, f = HFile.bucket day content ∧
        day * msPerDay < now - twoYearsMs) := by
  refine ⟨?_, ?_, ?_⟩
  · rw [cleanupDeleted, cleanupRemaining, List.filter_filter]
    simp
  · rw [cleanupRemaining, cleanupRemaining, List.filter_filter]
    simp
  · intro f
    rw [cleanupDeleted, List.mem_filter]
    cases f with
    | bucket day content => simp [isExpiredAt, and_comm]
    | other name => simp [isExpiredAt]

theorem mem_keys_omapInsert {κ α : Type} [DecidableEq κ] (k k' : κ) (v : α)
    (l : List (κ × α)) :
    k' ∈ (omapInsert k v l).map Prod.fst ↔ k' = k ∨ k' ∈ l.map Prod.fst := by
  induction l with
  | nil => simp [omapInsert]
  | cons p rest ih =>
    obtain ⟨k₁, v₁⟩ := p
    by_cases hk : k₁ = k
    · subst hk
      simp [omapInsert]
    · simp only [omapInsert, if_neg hk, List.map_cons, List.mem_cons, ih]
      tauto

theorem nodup_keys_omapInsert {κ α : Type} [DecidableEq κ] (k : κ) (v : α)
    (l : List (κ × α)) (h : (l.map Prod.fst).Nodup) :
    ((omapInsert k v l).map Prod.fst).Nodup := by
  induction l with
  | nil => simp [omapInsert]
  | cons p rest ih =>
    obtain ⟨k₁, v₁⟩ := p
    simp only [List.map_cons, List.nodup_cons] at h
    by_cases hk : k₁ = k
    · subst hk
      simpa [omapInsert] using h
    · simp only [omapInsert, if_neg hk, List.map_cons, List.nodup_cons]
      exact ⟨by
        rw [mem_keys_omapInsert]
        push_neg
        exact ⟨hk, h.1⟩, ih h.2⟩

theorem olookup_omapInsert_ne {κ α : Type} [DecidableEq κ] {k k' : κ} (hne : k' ≠ k)
    (v : α) (l : List (κ × α)) : olookup k (omapInsert k' v l) = olookup k l := by
  induction l with
  | nil => simp [omapInsert, olookup, hne]
  | cons p rest ih =>
    obtain ⟨k₁, v₁⟩ := p
    by_cases hk : k₁ = k'
    · subst hk
      simp [omapInsert, olookup, hne]
    · simp [omapInsert, olookup, hk, ih]

theorem mem_omapInsert {κ α : Type} [DecidableEq κ] (k : κ) (v : α)
    (l : List (κ × α)) (p : κ × α) (hp : p ∈ omapInsert k v l) : p = (k, v) ∨ p ∈ l := by
  induction l with
  | nil => simpa [omapInsert] using hp
  | cons q rest ih =>
    obtain ⟨k₁, v₁⟩ := q
    by_cases hk : k₁ = k
    · subst hk
      rw [omapInsert, if_pos rfl] at hp
      rcases List.mem_cons.mp hp with h | h
      · exact Or.inl h
      · exact Or.inr (List.mem_cons_of_mem _ h)
    · rw [omapInsert, if_neg hk] at hp
      rcases List.mem_cons.mp hp with h | h
      · exact Or.inr (h ▸ List.mem_cons_self _ _)
      · rcases ih h with h' | h'
        · exact Or.inl h'
        · exact Or.inr (List.mem_cons_of_mem _ h')

theorem olookup_buildRegionMap_aux (rs : List VisibilityResult)
    (m : List (String × VisibilityResult)) (k : String) :
    olookup k (rs.foldl (fun m r => omapInsert r.region r m) m)
      = (rs.reverse.find? fun r => r.region == k).or (olookup k m) := by
  induction rs generalizing m with
  | nil => simp
  | cons r rest ih =>
    rw [List.foldl_cons, ih, List.reverse_cons, List.find?_append, Option.or_assoc]
    congr 1
    by_cases hk : r.region = k
    · subst hk
      simp [List.find?, olookup_omapInsert_self]
    · have : (r.region == k) = false := by simpa using hk
      simp [List.find?, this, olookup_omapInsert_ne hk]

theorem nodup_keys_buildRegionMap_aux (rs : List VisibilityResult)
    (m : List (String × VisibilityResult)) (h : (m.map Prod.fst).Nodup) :
    ((rs.foldl (fun m r => omapInsert r.region r m) m).map Prod.fst).Nodup := by
  induction rs generalizing m with
  | nil => exact h
  | cons r rest ih => exact ih _ (nodup_keys_omapInsert _ _ _ h)

theorem key_invariant_buildRegionMap_aux (rs : List VisibilityResult)
    (m : List (String × VisibilityResult)) (h : ∀ p ∈ m, p.2.region = p.1) :
    ∀ p ∈ rs.foldl (fun m r => omapInsert r.region r m) m, p.2.region = p.1 := by
  induction rs generalizing m with
  | nil => exact h
  | cons r rest ih =>
    refine ih _ ?_
    intro p hp
    rcases mem_omapInsert _ _ _ _ hp with h' | h'
    · rw [h']
    · exact h p h'

/-- C8: the region map has exactly one entry per distinct region key; a
key maps to the last result with that region in iteration order; every
entry's stored result carries its own key as region, so the per-region
endpoint records (built from the map entries) and the flat collection
(built from the map values) are the same records, built from exactly
these winning entries. -/
theorem regionAggregation_last_write_wins (results : List VisibilityResult) :
    ((buildRegionMap results).map Prod.fst).Nodup ∧
    (∀ k, olookup k (buildRegionMap results)
        = results.reverse.find? fun r => r.region == k) ∧
    (∀ p ∈ buildRegionMap results, p.2.region = p.1) ∧
    regionEndpoints results = allRegionsList results := by
  have hinv := key_invariant_buildRegionMap_aux results [] (by simp)
  refine ⟨nodup_keys_buildRegionMap_aux results [] (by simp), ?_, hinv, ?_⟩
  · intro k
    rw [buildRegionMap, olookup_buildRegionMap_aux]
    simp [olookup]
  · rw [regionEndpoints, allRegionsList]
    apply List.map_congr_left
    intro p hp
    rw [hinv p hp]

theorem seqReads_of_all_some (l : List (ℤ × Option HistoricalData))
    (h : ∀ p ∈ l, p.2 ≠ none) :
    seqReads l = some (l.filterMap fun p => p.2) := by
  induction l with
  | nil => rfl
  | cons p rest ih =>
    obtain ⟨d, c⟩ := p
    cases c with
    | none => exact absurd rfl (h (d, none) (List.mem_cons_self _ _))
    | some x =>
      rw [seqReads, ih fun q hq => h q (List.mem_cons_of_mem _ hq)]
      simp

theorem seqReads_eq_none (l : List (ℤ × Option HistoricalData))
    (p : ℤ × Option HistoricalData) (hp : p ∈ l) (hnone : p.2 = none) :
    seqReads l = none := by
  induction l with
  | nil => exact absurd hp (List.not_mem_nil p)
  | cons q rest ih =>
    obtain ⟨d, c⟩ := q
    cases c with
    | none => rfl
    | some x =>
      rcases List.mem_cons.mp hp with h | h
      · rw [h] at hnone
        exact absurd hnone (by simp)
      · rw [seqReads, ih h]
        rfl

/-- C2: over a bucket set whose files are all readable,
`generateRecentFile` succeeds and its output is exactly the non-empty
hourly readings of the buckets not dated more than 7 days before `now`
(all others excluded), sorted ascending by timestamp. -/
theorem generateRecentFile_window_perm_sorted (buckets : List (ℤ × HistoricalData))
    (now : ℤ) :
    ∃ out,
      generateRecentFile (buckets.map fun p => HFile.bucket p.1 (some p.2)) now = some out ∧
      out.Perm ((buckets.filter
          fun p => !decide (p.1 * msPerDay < now - sevenDaysMs)).flatMap
        fun p => p.2.hours.filterMap id) ∧
      List.Sorted tsLe out := by
  have hpred : (buckets.filter fun p => !decide (p.1 * msPerDay < now - sevenDaysMs))
      = buckets.filter fun p => bucketInWindow now p.1 := by
    refine List.filter_congr fun p _ => ?_
    rw [bucketInWindow, ← decide_not, decide_eq_decide]
    exact (ge_iff_le.trans not_lt.symm).symm
  rw [hpred]
  have hdf : dateFiles (buckets.map fun p => HFile.bucket p.1 (some p.2))
      = buckets.map fun p => (p.1, some p.2) := by
    rw [dateFiles, List.filterMap_map]
    exact List.filterMap_eq_map _ ▸ rfl
  set fl := buckets.filter fun p => bucketInWindow now p.1 with hfl
  have hfilter : ((dateFiles (buckets.map fun p => HFile.bucket p.1 (some p.2))).filter
        fun p => bucketInWindow now p.1)
      = fl.map fun p => (p.1, some p.2) := by
    rw [hdf, List.filter_map]
    rfl
  rw [generateRecentFile, hfilter]
  set sortedFiles := ((fl.map fun p => (p.1, some p.2)).insertionSort byDay) with hsf
  have hperm : sortedFiles.Perm (fl.map fun p => (p.1, some p.2)) :=
    List.perm_insertionSort _ _
  have hall : ∀ q ∈ sortedFiles, q.2 ≠ none := by
    intro q hq
    have := hperm.mem_iff.mp hq
    rcases List.mem_map.mp this with ⟨p, _, hpq⟩
    rw [← hpq]
    simp
  rw [seqReads_of_all_some _ hall]
  refine ⟨_, rfl, ?_, List.sorted_insertionSort _ _⟩
  have h2 : ((fl.map fun p => (p.1, some p.2)).filterMap fun p => p.2)
      = fl.map fun p => p.2 := by
    rw [List.filterMap_map]
    exact List.filterMap_eq_map _ ▸ rfl
  have h1 := hperm.filterMap fun p => p.2
  rw [h2] at h1
  have h4 := h1.flatMap_right fun d => d.hours.filterMap id
  rw [List.flatMap_map] at h4
  exact (List.perm_insertionSort _ _).trans h4

/-- C3 counterexample: with one readable in-window bucket (day 0) and
one unreadable in-window bucket (day 1), the recompute produces no
rollup at all, even though the same readable bucket alone yields one:
the corrupt bucket is not skipped, it aborts the whole recompute. -/
theorem generateRecentFile_corrupt_bucket_counterexample :
    generateRecentFile corruptDir 86400000 = none ∧
    generateRecentFile
        [HFile.bucket 0 (some (HistoricalData.mk [some (HistoricalReading.mk 0 []), none]))]
        86400000
      = some [HistoricalReading.mk 0 []] := by
  refine ⟨?_, ?_⟩ <;> decide

/-- C3 amended: if any bucket file within the 7-day window is
unreadable or corrupt, the whole recent-rollup recompute is abandoned
(the error is caught around the entire loop): no rollup is produced from
the remaining readable buckets and the previous artifact is left in
place. -/
theorem generateRecentFile_corrupt_bucket_aborts (files : List HFile) (now day : ℤ)
    (hmem : HFile.bucket day none ∈ files) (hwin : bucketInWindow now day = true) :
    generateRecentFile files now = none := by
  have h1 : (day, (none : Option HistoricalData)) ∈ dateFiles files := by
    rw [dateFiles, List.mem_filterMap]
    exact ⟨HFile.bucket day none, hmem, rfl⟩
  have h3 : (day, (none : Option HistoricalData)) ∈
      (((dateFiles files).filter fun p => bucketInWindow now p.1).insertionSort byDay) := by
    rw [List.mem_insertionSort, List.mem_filter]
    exact ⟨h1, hwin⟩
  rw [generateRecentFile, seqReads_eq_none _ _ h3 rfl]

/-- Witness for the amended C3 at the concrete two-bucket directory. -/
theorem generateRecentFile_corrupt_bucket_aborts_witness :
    HFile.bucket 1 none ∈ corruptDir ∧ bucketInWindow 86400000 1 = true ∧
    generateRecentFile corruptDir 86400000 = none :=
  ⟨by decide, by decide,
    generateRecentFile_corrupt_bucket_aborts corruptDir 86400000 1 (by decide) (by decide)⟩

end Fog
